import Mathlib

/-!
Verification of the `purple_blox` thread pool (`src/purple_blox/src/pool.rs`).

The pool owns a vector of workers and the producer endpoint of an mpsc
channel; each worker spawns a thread that loops: lock the shared
`Arc<Mutex<Receiver<Message>>>`, `recv` one message, release the lock, and
either run the job (`ControlFlow::Continue`) or break (`ControlFlow::Break`).
`Drop for ThreadPool` sends one `Break` per worker and then joins every
worker thread in order.

The embedding below models, directly from that file:
  * the data types (`Message`, `ThreadPool`, `Worker`,
    `PoolInitialisationError`) with closures abstracted to `Task` values
    carrying an id and whether invoking them raises an unhandled panic;
  * `ThreadPool::new` and the side effects it performs (`newEffects`);
  * the teardown performed by `impl Drop for ThreadPool` (`dropRun`),
    as the ordered trace of sends and joins it executes;
  * a small-step runtime view `Sys` (channel buffer plus per-thread status)
    with `Sys.execute` — where `send` fails exactly when the `Receiver`
    has been dropped, i.e. when every worker thread has exited, and the
    `unwrap` then panics — and `Sys.workerStep`, one loop iteration of one
    worker thread;
  * the worker loop over the whole sequence of messages delivered to one
    worker (`workerLoop`), and its lock-granularity event trace
    (`loopEvents`), reflecting that the `MutexGuard` temporary in
    `let message = inbox.lock().unwrap().recv().unwrap();` is dropped at
    the end of that statement, before the job runs.
-/

namespace PurpleBlox

/-- A submitted unit of work: in the source a `Box<dyn FnOnce() + Send>`
closure. `id` distinguishes tasks; `panics` records whether invoking the
closure raises an unhandled panic (the loop body calls `job()` bare, so a
panic unwinds out of the spawned closure and terminates the thread). -/
structure Task where
  id : Nat
  panics : Bool
  deriving DecidableEq, Repr

/-- `type Message = ops::ControlFlow<(), Box<dyn FnOnce() + Send>>`
(pool.rs line 16). `Continue job` is the spec "Run(task)" and `Break` with
payload `()` is the spec "Stop". -/
inductive Message where
  | Continue (job : Task)
  | Break
  deriving DecidableEq, Repr

/-- The job a message carries, if any. -/
def Message.job : Message → Option Task
  | Message.Continue t => some t
  | Message.Break => none

/-- `true` for a `Continue` message whose job does not panic. -/
def Message.okJob : Message → Bool
  | Message.Continue t => !t.panics
  | Message.Break => false

/-- `PoolInitialisationErrorKind` (lines 111-115): `ZeroThreads` is its only
variant (`non_exhaustive` only reserves the right to add more later). -/
inductive PoolInitialisationErrorKind where
  | ZeroThreads
  deriving DecidableEq, Repr

/-- `PoolInitialisationError` (lines 106-109). -/
structure PoolInitialisationError where
  kind : PoolInitialisationErrorKind
  deriving DecidableEq, Repr

/-- Status of the OS thread spawned by a worker. -/
inductive ThreadStatus where
  | running
  | stopped
  | faulted
  deriving DecidableEq, Repr

/-- The thread spawned in `Worker::new` (lines 84-100), as data: the worker
id moved into the closure, which shared receiver (`Arc<Mutex<Receiver>>`)
the loop pulls from, and whether the thread is still running, exited via
`break`, or was killed by a panicking job. -/
structure SpawnedThread where
  workerId : Nat
  inbox : Nat
  status : ThreadStatus
  deriving DecidableEq, Repr

/-- `struct Worker(Option<thread::JoinHandle<()>>)` (line 80). -/
structure Worker where
  handle : Option SpawnedThread
  deriving DecidableEq, Repr

/-- `Worker::new(id, inbox)` (lines 83-103): spawns the loop thread and
stores `Some(handle)`. -/
def Worker.new (id : Nat) (inbox : Nat) : Worker :=
  { handle := some { workerId := id, inbox := inbox, status := ThreadStatus.running } }

/-- `struct ThreadPool { workers: Vec<Worker>, pipeline: Sender<Message> }`
(lines 18-21); the sender endpoint is identified by a token. -/
structure ThreadPool where
  workers : List Worker
  pipeline : Nat
  deriving DecidableEq, Repr

/-- `ThreadPool::new` (lines 31-51): when `threads > 0`, create the channel,
wrap the receiver in `Arc<Mutex<_>>` (one shared endpoint, token `0`), and
push `Worker::new(i, clone)` for `i` in `0..threads`; otherwise return
`PoolInitialisationError { kind: ZeroThreads }`. -/
def ThreadPool.new (threads : Nat) : Except PoolInitialisationError ThreadPool :=
  if 0 < threads then
    Except.ok
      { workers := (List.range threads).map (fun i => Worker.new i 0),
        pipeline := 0 }
  else
    Except.error { kind := PoolInitialisationErrorKind.ZeroThreads }

/-- An observable side effect of `ThreadPool::new`. -/
inductive InitEffect where
  | channelCreated
  | spawned (workerId : Nat)
  deriving DecidableEq, Repr

/-- The side effects `ThreadPool::new` performs, in order (lines 31-51): in
the `threads > 0` arm it creates the mpsc channel and then spawns one
thread per worker; the other arm builds the error value and does nothing
else. -/
def ThreadPool.newEffects (threads : Nat) : List InitEffect :=
  if 0 < threads then
    InitEffect.channelCreated :: (List.range threads).map InitEffect.spawned
  else
    []

/-- One operation performed by `impl Drop for ThreadPool`. -/
inductive TeardownEvent where
  | sendStop
  | join (workerId : Nat)
  deriving DecidableEq, Repr

/-- `impl Drop for ThreadPool` (lines 63-78): first
`for _ in &self.workers { self.pipeline.send(Message::Break(())).unwrap() }`,
then `self.workers.iter_mut().filter_map(|x| x.0.take()).for_each(|x| x.join().unwrap())`.
Result: the pool as drop leaves it (every handle taken out) and the ordered
trace of sends and joins. -/
def ThreadPool.dropRun (p : ThreadPool) : ThreadPool × List TeardownEvent :=
  let sends := p.workers.map (fun _ => TeardownEvent.sendStop)
  let joins := (p.workers.filterMap Worker.handle).map (fun h => TeardownEvent.join h.workerId)
  ({ workers := p.workers.map (fun _ => { handle := none }), pipeline := p.pipeline },
   sends ++ joins)

/-- A live pool together with the channel buffer (the messages sent but not
yet received, in FIFO order). -/
structure Sys where
  pool : ThreadPool
  queue : List Message
  deriving DecidableEq, Repr

/-- A freshly constructed pool has an empty channel. -/
def Sys.init (threads : Nat) : Except PoolInitialisationError Sys :=
  (ThreadPool.new threads).map (fun p => { pool := p, queue := [] })

/-- The `Receiver<Message>` is owned solely by the `Arc<Mutex<_>>` clones
captured by the worker closures (the clone made in `new` goes out of scope
when `new` returns), so the receiver is dropped exactly when every worker
thread has exited, and `Sender::send` succeeds iff some worker thread is
still running. -/
def ThreadPool.receiverAlive (p : ThreadPool) : Bool :=
  p.workers.any (fun w =>
    match w.handle with
    | some h =>
      match h.status with
      | ThreadStatus.running => true
      | _ => false
    | none => false)

/-- `ThreadPool::execute` (lines 53-60):
`self.pipeline.send(Message::Continue(Box::new(f))).unwrap()`. `send`
returns `Err` iff the receiver has been dropped; then nothing is enqueued
and the `unwrap` panics, modelled as `Except.error ()`. Otherwise exactly
the one `Continue` message is appended and the call returns unit — no
completion signal of any kind. -/
def Sys.execute (s : Sys) (f : Task) : Except Unit Sys :=
  if s.pool.receiverAlive then
    Except.ok { s with queue := s.queue ++ [Message.Continue f] }
  else
    Except.error ()

/-- What receiving message `m` does to a running worker thread (the `match`
body of the loop, lines 90-99): a `Continue` job is invoked — if it panics
the unwinding kills the thread, otherwise the loop continues — and `Break`
breaks out of the loop. -/
def Message.stepStatus : Message → ThreadStatus
  | Message.Continue t =>
    if t.panics then ThreadStatus.faulted else ThreadStatus.running
  | Message.Break => ThreadStatus.stopped

/-- One iteration of the loop in `Worker::new` (lines 84-100) taken by the
thread of worker `w`: lock the shared receiver, `recv` the front message,
release the lock, then either invoke the job — a panicking job unwinds and
kills the thread (`faulted`) — or `break` on `Break` (`stopped`). `none`
when no step is possible: empty queue (`recv` blocks) or the thread has
already exited. -/
def Sys.workerStep (s : Sys) (w : Nat) : Option Sys :=
  match s.queue with
  | [] => none
  | m :: rest =>
    match s.pool.workers.get? w with
    | none => none
    | some wk =>
      match wk.handle with
      | none => none
      | some th =>
        match th.status with
        | ThreadStatus.running =>
          some { pool := { s.pool with
                           workers := s.pool.workers.set w
                             { handle := some { th with status := m.stepStatus } } },
                 queue := rest }
        | _ => none

/-- How a run of the worker loop over a finite message sequence ended. -/
inductive WorkerExit where
  | stopped
  | faulted
  | blocked
  deriving DecidableEq, Repr

/-- The whole worker loop (lines 84-100), run over the sequence of messages
this worker receives, in order: the jobs it invoked (in order), how the
thread ended (`stopped` on `Break`, `faulted` when a job panicked,
`blocked` when the sequence ran out while it waited in `recv`), and the
messages left behind untouched after the thread exited. -/
def workerLoop : List Message → List Task × WorkerExit × List Message
  | [] => ([], WorkerExit.blocked, [])
  | Message.Continue t :: rest =>
    if t.panics then
      ([t], WorkerExit.faulted, rest)
    else
      let r := workerLoop rest
      (t :: r.1, r.2.1, r.2.2)
  | Message.Break :: rest => ([], WorkerExit.stopped, rest)

/-- Fine-grained event of a worker loop iteration. -/
inductive LoopEvent where
  | acquire
  | recvMsg
  | release
  | invoke (t : Task)
  | exitLoop
  deriving DecidableEq, Repr

/-- Events of a single iteration (lines 85-99). In
`let message = inbox.lock().unwrap().recv().unwrap();` the `MutexGuard` is
a temporary of that `let` statement, so it is dropped — the lock released —
when the statement ends, before the `match` either runs the job or breaks. -/
def iterEvents : Message → List LoopEvent
  | Message.Continue t =>
    [LoopEvent.acquire, LoopEvent.recvMsg, LoopEvent.release, LoopEvent.invoke t]
  | Message.Break =>
    [LoopEvent.acquire, LoopEvent.recvMsg, LoopEvent.release, LoopEvent.exitLoop]

/-- Event trace of the whole loop over the messages one worker receives:
iterations chain until a `Break` is received or a job panics. -/
def loopEvents : List Message → List LoopEvent
  | [] => []
  | Message.Continue t :: rest =>
    iterEvents (Message.Continue t) ++ (if t.panics then [] else loopEvents rest)
  | Message.Break :: _ => iterEvents Message.Break

/-- Checks a trace starting at lock depth `d`: every `invoke` must happen at
depth zero, i.e. with the mutex not held. -/
def lockFreeInvokes : Nat → List LoopEvent → Bool
  | _, [] => true
  | d, LoopEvent.acquire :: r => lockFreeInvokes (d + 1) r
  | d, LoopEvent.release :: r => lockFreeInvokes (d - 1) r
  | d, LoopEvent.invoke _ :: r => d == 0 && lockFreeInvokes d r
  | d, LoopEvent.recvMsg :: r => lockFreeInvokes d r
  | d, LoopEvent.exitLoop :: r => lockFreeInvokes d r

/-- States reachable while the `ThreadPool` value is alive (its `Drop` has
not run), starting from a successful construction, by `execute` calls that
submit only non-panicking tasks and by worker loop iterations. -/
inductive ReachOk : Sys → Prop where
  | init (threads : Nat) (s : Sys) (h : 1 ≤ threads)
      (hs : Sys.init threads = Except.ok s) : ReachOk s
  | exec (s s2 : Sys) (t : Task) (h : ReachOk s) (ht : t.panics = false)
      (hs : Sys.execute s t = Except.ok s2) : ReachOk s2
  | work (s s2 : Sys) (w : Nat) (h : ReachOk s) (hs : Sys.workerStep s w = some s2) :
      ReachOk s2

/-- Invariant of `ReachOk` states: at least one worker, every worker thread
still running, and only non-panicking jobs queued. -/
def SysOk (s : Sys) : Prop :=
  s.pool.workers ≠ [] ∧
  (∀ w ∈ s.pool.workers, ∃ wid ib,
    w.handle = some { workerId := wid, inbox := ib, status := ThreadStatus.running }) ∧
  (∀ m ∈ s.queue, Message.okJob m = true)

/-! Theorems. -/

/-- Helper: a `filterMap` whose function always returns `some` is a `map`. -/
theorem filterMap_total {α β : Type} (f : α → β) (l : List α) :
    l.filterMap (fun a => some (f a)) = l.map f := by
  induction l with
  | nil => rfl
  | cons a l ih => simp [List.filterMap_cons, ih]

/-- C3: `ThreadPool::new 0` always fails, the error kind is `ZeroThreads`,
and this is the only error the constructor can return: for every input the
result is either `Ok` or exactly that error. -/
theorem new_zero_fails_only_zeroThreads :
    ThreadPool.new 0 = Except.error { kind := PoolInitialisationErrorKind.ZeroThreads } ∧
    ∀ n : Nat, Except.isOk (ThreadPool.new n) = true ∨
      ThreadPool.new n = Except.error { kind := PoolInitialisationErrorKind.ZeroThreads } := by
  refine ⟨rfl, fun n => ?_⟩
  cases Nat.eq_zero_or_pos n with
  | inl h => right; rw [h]; rfl
  | inr h => left; rw [ThreadPool.new, if_pos h]; rfl

/-- C10: calling the constructor with 0 performs no side effect at all — no
channel is created and no thread is spawned (`newEffects 0 = []`) — and
returns the `ZeroThreads` error, so on error nothing of the pool exists. -/
theorem new_zero_no_effects :
    ThreadPool.newEffects 0 = [] ∧
    ThreadPool.new 0 = Except.error { kind := PoolInitialisationErrorKind.ZeroThreads } :=
  ⟨rfl, rfl⟩

/-- C7: over any sequence of received messages, the worker loop never holds
the receiver mutex while invoking a job: the guard acquired for the dequeue
is released before every `invoke` event in the loop trace. -/
theorem loop_never_holds_lock_during_invoke :
    ∀ msgs : List Message, lockFreeInvokes 0 (loopEvents msgs) = true := by
  intro msgs
  induction msgs with
  | nil => rfl
  | cons m rest ih =>
    cases m with
    | Continue t =>
      cases ht : t.panics with
      | true => simp [loopEvents, iterEvents, lockFreeInvokes, ht]
      | false => simpa [loopEvents, iterEvents, lockFreeInvokes, ht] using ih
    | Break => rfl

/-- C5: the worker loop receives messages one at a time; each `Continue`
job before the first `Break` is invoked exactly once, in order, after which
the loop returns to receiving; consuming a `Break` exits the loop, and the
exit is absorbing — every message after the `Break` is left untouched,
never received, run, or re-delivered by this worker. -/
theorem workerLoop_runs_then_stops (pre post : List Message)
    (h : pre.all Message.okJob = true) :
    workerLoop (pre ++ Message.Break :: post) =
      (pre.filterMap Message.job, WorkerExit.stopped, post) := by
  induction pre with
  | nil => rfl
  | cons m rest ih =>
    cases m with
    | Continue t =>
      have h2 : (!t.panics) = true ∧ rest.all Message.okJob = true := by
        simpa [List.all_cons, Message.okJob, Bool.and_eq_true] using h
      have ht : t.panics = false := by
        simpa using h2.1
      simp [workerLoop, ht, Message.job, ih h2.2]
    | Break => simp [List.all_cons, Message.okJob] at h

/-- C5 witness: a concrete run with two good jobs, a `Break`, and a pending
message behind it. -/
theorem workerLoop_runs_then_stops_witness :
    ([Message.Continue { id := 1, panics := false },
      Message.Continue { id := 2, panics := false }].all Message.okJob = true) ∧
    workerLoop
        ([Message.Continue { id := 1, panics := false },
          Message.Continue { id := 2, panics := false }] ++
          Message.Break :: [Message.Continue { id := 3, panics := false }]) =
      ([Message.Continue { id := 1, panics := false },
        Message.Continue { id := 2, panics := false }].filterMap Message.job,
       WorkerExit.stopped,
       [Message.Continue { id := 3, panics := false }]) :=
  ⟨by decide, workerLoop_runs_then_stops _ _ (by decide)⟩

/-- C8: a job that raises an unhandled fault is not contained: the worker
loop invokes the jobs before it, starts the faulting job, and the fault
terminates the thread (`faulted`), which never returns to receiving — every
message after the faulting one is left behind, permanently reducing the
pool capacity by this worker. -/
theorem workerLoop_fault_kills_worker (pre post : List Message) (t : Task)
    (h : pre.all Message.okJob = true) (ht : t.panics = true) :
    workerLoop (pre ++ Message.Continue t :: post) =
      (pre.filterMap Message.job ++ [t], WorkerExit.faulted, post) := by
  induction pre with
  | nil => simp [workerLoop, ht]
  | cons m rest ih =>
    cases m with
    | Continue u =>
      have h2 : (!u.panics) = true ∧ rest.all Message.okJob = true := by
        simpa [List.all_cons, Message.okJob, Bool.and_eq_true] using h
      have hu : u.panics = false := by
        simpa using h2.1
      simp [workerLoop, hu, Message.job, ih h2.2]
    | Break => simp [List.all_cons, Message.okJob] at h

/-- C8 witness: one good job, then a panicking job, with a message pending
behind it that is never received. -/
theorem workerLoop_fault_kills_worker_witness :
    ([Message.Continue { id := 1, panics := false }].all Message.okJob = true) ∧
    (({ id := 2, panics := true } : Task).panics = true) ∧
    workerLoop
        ([Message.Continue { id := 1, panics := false }] ++
          Message.Continue { id := 2, panics := true } ::
            [Message.Continue { id := 3, panics := false }]) =
      ([Message.Continue { id := 1, panics := false }].filterMap Message.job ++
        [{ id := 2, panics := true }],
       WorkerExit.faulted,
       [Message.Continue { id := 3, panics := false }]) :=
  ⟨by decide, rfl, workerLoop_fault_kills_worker _ _ _ (by decide) rfl⟩

/-- C6: while the receiver is alive, `execute` wraps the task in a
`Continue` (Run) message and sends exactly that one message: the channel
grows by exactly `[Message.Continue t]`, nothing else of the state changes,
and the call yields no value beyond unit — no synchronous confirmation of
completion exists in the return type. -/
theorem execute_enqueues_one_run (s : Sys) (t : Task)
    (h : s.pool.receiverAlive = true) :
    Sys.execute s t = Except.ok { s with queue := s.queue ++ [Message.Continue t] } := by
  simp [Sys.execute, h]

/-- C6 witness: a fresh one-worker pool accepts a task, appending exactly
one `Continue` message. -/
theorem execute_enqueues_one_run_witness :
    (ThreadPool.receiverAlive { workers := [Worker.new 0 0], pipeline := 0 } = true) ∧
    Sys.execute { pool := { workers := [Worker.new 0 0], pipeline := 0 }, queue := [] }
        { id := 5, panics := false } =
      Except.ok { pool := { workers := [Worker.new 0 0], pipeline := 0 },
                  queue := [Message.Continue { id := 5, panics := false }] } :=
  ⟨rfl, execute_enqueues_one_run _ _ rfl⟩

/-- C1: the teardown performed by `Drop for ThreadPool` first sends exactly
one `Break` (Stop) per worker — `n` of them, matching the worker count —
and only then joins every worker thread, in worker order, before
returning. -/
theorem dropRun_stops_then_joins_in_order (n : Nat) (p : ThreadPool)
    (h : ThreadPool.new n = Except.ok p) :
    (p.dropRun).2 =
      List.replicate n TeardownEvent.sendStop ++ (List.range n).map TeardownEvent.join ∧
    p.workers.length = n := by
  cases Nat.eq_zero_or_pos n with
  | inl h0 =>
    rw [h0, ThreadPool.new] at h
    simp at h
  | inr h0 =>
    rw [ThreadPool.new, if_pos h0] at h
    cases h
    constructor
    · simp [ThreadPool.dropRun, List.filterMap_map, Function.comp_def, Worker.new,
        List.map_const', filterMap_total, List.map_map]
    · simp

/-- C1 witness: teardown of a two-worker pool sends two stops and then
joins workers 0 and 1, in order. -/
theorem dropRun_stops_then_joins_in_order_witness :
    ThreadPool.new 2 = Except.ok { workers := [Worker.new 0 0, Worker.new 1 0], pipeline := 0 } ∧
    ((({ workers := [Worker.new 0 0, Worker.new 1 0], pipeline := 0 } : ThreadPool).dropRun).2 =
        List.replicate 2 TeardownEvent.sendStop ++ (List.range 2).map TeardownEvent.join ∧
      ({ workers := [Worker.new 0 0, Worker.new 1 0], pipeline := 0 } : ThreadPool).workers.length = 2) :=
  ⟨rfl, dropRun_stops_then_joins_in_order 2 _ rfl⟩

/-- C2: for every `n ≥ 1` construction succeeds and the pool owns exactly
`n` workers; every worker holds a spawned thread (`n` handles present), the
thread ids are pairwise distinct — each worker has its own thread — and
every thread pulls from the same single shared receiver endpoint (token
`0`, the one `Arc<Mutex<Receiver>>` made by this construction). -/
theorem new_pos_builds_n_workers (n : Nat) (h : 1 ≤ n) :
    ∃ p, ThreadPool.new n = Except.ok p ∧
      p.workers.length = n ∧
      (p.workers.filterMap Worker.handle).length = n ∧
      (p.workers.filterMap (fun w => Option.map SpawnedThread.workerId w.handle)) =
        List.range n ∧
      (p.workers.filterMap (fun w => Option.map SpawnedThread.inbox w.handle)) =
        List.replicate n 0 := by
  have h0 : 0 < n := h
  refine ⟨{ workers := (List.range n).map (fun i => Worker.new i 0), pipeline := 0 },
    ?_, ?_, ?_, ?_, ?_⟩
  · rw [ThreadPool.new, if_pos h0]
  · simp
  · simp [List.filterMap_map, Function.comp_def, Worker.new, filterMap_total]
  · simp [List.filterMap_map, Function.comp_def, Worker.new, filterMap_total]
  · simp [List.filterMap_map, Function.comp_def, Worker.new, filterMap_total,
      List.map_const']

/-- C2 witness: construction with 3 workers. -/
theorem new_pos_builds_n_workers_witness :
    (1 ≤ 3) ∧
    ∃ p, ThreadPool.new 3 = Except.ok p ∧
      p.workers.length = 3 ∧
      (p.workers.filterMap Worker.handle).length = 3 ∧
      (p.workers.filterMap (fun w => Option.map SpawnedThread.workerId w.handle)) =
        List.range 3 ∧
      (p.workers.filterMap (fun w => Option.map SpawnedThread.inbox w.handle)) =
        List.replicate 3 0 :=
  ⟨by decide, new_pos_builds_n_workers 3 (by decide)⟩

/-- Helper: a worker loop iteration never changes how many workers the pool
owns (it only updates the status of the stepping thread). -/
theorem workerStep_length (s s2 : Sys) (w : Nat) (h : Sys.workerStep s w = some s2) :
    s2.pool.workers.length = s.pool.workers.length := by
  unfold Sys.workerStep at h
  split at h
  · simp at h
  · split at h
    · simp at h
    · split at h
      · simp at h
      · split at h
        · cases h
          simp [List.length_set]
        · simp at h

/-- C9: a successfully built pool owns at least one worker, and no
subsequent operation changes how many: teardown empties the handles but
keeps the worker list length, `execute` leaves the pool component of the
state untouched, and a worker loop iteration preserves the worker count. -/
theorem workers_count_invariant (n : Nat) (p : ThreadPool) (s s2 s3 : Sys)
    (t : Task) (w : Nat)
    (hp : ThreadPool.new n = Except.ok p)
    (he : Sys.execute s t = Except.ok s2)
    (hw : Sys.workerStep s w = some s3) :
    1 ≤ p.workers.length ∧
    (p.dropRun).1.workers.length = p.workers.length ∧
    s2.pool = s.pool ∧
    s3.pool.workers.length = s.pool.workers.length := by
  refine ⟨?_, ?_, ?_, workerStep_length s s3 w hw⟩
  · cases Nat.eq_zero_or_pos n with
    | inl h0 => rw [h0, ThreadPool.new] at hp; simp at hp
    | inr h0 =>
      rw [ThreadPool.new, if_pos h0] at hp
      cases hp
      simpa using h0
  · simp [ThreadPool.dropRun]
  · rw [Sys.execute] at he
    by_cases hr : s.pool.receiverAlive = true
    · rw [if_pos hr] at he
      cases he
      rfl
    · rw [if_neg hr] at he
      simp at he

/-- C9 witness: a two-worker pool, and a one-worker system with one queued
job where both an `execute` call and a worker step apply. -/
theorem workers_count_invariant_witness :
    ThreadPool.new 2 = Except.ok { workers := [Worker.new 0 0, Worker.new 1 0], pipeline := 0 } ∧
    Sys.execute { pool := { workers := [Worker.new 0 0], pipeline := 0 },
                  queue := [Message.Continue { id := 7, panics := false }] }
        { id := 8, panics := false } =
      Except.ok { pool := { workers := [Worker.new 0 0], pipeline := 0 },
                  queue := [Message.Continue { id := 7, panics := false },
                            Message.Continue { id := 8, panics := false }] } ∧
    Sys.workerStep { pool := { workers := [Worker.new 0 0], pipeline := 0 },
                     queue := [Message.Continue { id := 7, panics := false }] } 0 =
      some { pool := { workers := [Worker.new 0 0], pipeline := 0 }, queue := [] } ∧
    (1 ≤ ({ workers := [Worker.new 0 0, Worker.new 1 0], pipeline := 0 } : ThreadPool).workers.length ∧
      (({ workers := [Worker.new 0 0, Worker.new 1 0], pipeline := 0 } : ThreadPool).dropRun).1.workers.length =
        ({ workers := [Worker.new 0 0, Worker.new 1 0], pipeline := 0 } : ThreadPool).workers.length ∧
      ({ pool := { workers := [Worker.new 0 0], pipeline := 0 },
         queue := [Message.Continue { id := 7, panics := false },
                   Message.Continue { id := 8, panics := false }] } : Sys).pool =
        ({ pool := { workers := [Worker.new 0 0], pipeline := 0 },
           queue := [Message.Continue { id := 7, panics := false }] } : Sys).pool ∧
      ({ pool := { workers := [Worker.new 0 0], pipeline := 0 }, queue := [] } : Sys).pool.workers.length =
        ({ pool := { workers := [Worker.new 0 0], pipeline := 0 },
           queue := [Message.Continue { id := 7, panics := false }] } : Sys).pool.workers.length) :=
  ⟨rfl, rfl, rfl, workers_count_invariant 2 _ _ _ _ _ 0 rfl rfl rfl⟩

/-- Helper: a state satisfying the invariant has a running worker thread,
so the receiver is still alive and `send` succeeds. -/
theorem sysOk_receiverAlive (s : Sys) (h : SysOk s) : s.pool.receiverAlive = true := by
  obtain ⟨h1, h2, _⟩ := h
  rcases hw : s.pool.workers with _ | ⟨w, rest⟩
  · exact absurd hw h1
  · obtain ⟨wid, ib, hh⟩ := h2 w (by rw [hw]; exact List.mem_cons_self w rest)
    simp [ThreadPool.receiverAlive, hw, List.any_cons, hh]

/-- Helper: a freshly constructed system satisfies the invariant. -/
theorem sysOk_init (threads : Nat) (s : Sys) (h : 1 ≤ threads)
    (hs : Sys.init threads = Except.ok s) : SysOk s := by
  have h0 : 0 < threads := h
  rw [Sys.init, ThreadPool.new, if_pos h0] at hs
  simp only [Except.map] at hs
  cases hs
  refine ⟨?_, ?_, ?_⟩
  · intro hcon
    have hlen := congrArg List.length hcon
    simp at hlen
    omega
  · intro w hw
    rw [List.mem_map] at hw
    obtain ⟨i, _, rfl⟩ := hw
    exact ⟨i, 0, rfl⟩
  · intro m hm
    simp at hm

/-- Helper: `execute` of a non-panicking task preserves the invariant. -/
theorem sysOk_execute (s s2 : Sys) (t : Task) (hok : SysOk s) (ht : t.panics = false)
    (hs : Sys.execute s t = Except.ok s2) : SysOk s2 := by
  rw [Sys.execute, if_pos (sysOk_receiverAlive s hok)] at hs
  cases hs
  obtain ⟨h1, h2, h3⟩ := hok
  refine ⟨h1, h2, ?_⟩
  intro m hm
  rw [List.mem_append] at hm
  cases hm with
  | inl hold => exact h3 m hold
  | inr hnew =>
    simp at hnew
    subst hnew
    simp [Message.okJob, ht]

/-- Helper: a worker loop iteration preserves the invariant — with only
non-panicking jobs queued, the stepping thread keeps running. -/
theorem sysOk_workerStep (s s2 : Sys) (w : Nat) (hok : SysOk s)
    (h : Sys.workerStep s w = some s2) : SysOk s2 := by
  obtain ⟨h1, h2, h3⟩ := hok
  unfold Sys.workerStep at h
  split at h
  · simp at h
  next m rest hq =>
    split at h
    · simp at h
    next wk hg =>
      split at h
      · simp at h
      next th hh =>
        split at h
        · cases h
          have hm : Message.okJob m = true := h3 m (by rw [hq]; exact List.mem_cons_self m rest)
          have hst : Message.stepStatus m = ThreadStatus.running := by
            cases m with
            | Continue u =>
              have hu : u.panics = false := by simpa [Message.okJob] using hm
              simp [Message.stepStatus, hu]
            | Break => simp [Message.okJob] at hm
          refine ⟨?_, ?_, ?_⟩
          · intro hcon
            have hlen := congrArg List.length hcon
            rw [List.length_set] at hlen
            exact h1 (List.length_eq_zero.mp hlen)
          · intro w2 hw2
            rcases List.mem_or_eq_of_mem_set hw2 with hold | hnew
            · exact h2 w2 hold
            · subst hnew
              exact ⟨th.workerId, th.inbox, by rw [hst]⟩
          · intro m2 hm2
            exact h3 m2 (by rw [hq]; exact List.mem_cons_of_mem m hm2)
        · simp at h

/-- Helper: the invariant holds in every state reachable while the pool is
alive and only non-panicking tasks were submitted. -/
theorem reachOk_sysOk (s : Sys) (h : ReachOk s) : SysOk s := by
  induction h with
  | init threads s h hs => exact sysOk_init threads s h hs
  | exec s s2 t h ht hs ih => exact sysOk_execute s s2 t ih ht hs
  | work s s2 w h hs ih => exact sysOk_workerStep s s2 w ih hs

/-- C4 (amended): `execute` cannot fail as long as at least one worker
thread is still running; in particular, in every state reachable from a
successful construction in which no previously submitted task panicked and
the pool value is still alive, the send succeeds and enqueues the task. -/
theorem execute_ok_while_workers_alive (s : Sys) (t : Task) (h : ReachOk s) :
    Sys.execute s t =
      Except.ok { s with queue := s.queue ++ [Message.Continue t] } := by
  rw [Sys.execute, if_pos (sysOk_receiverAlive s (reachOk_sysOk s h))]

/-- C4 witness: a fresh one-worker system accepts a submission. -/
theorem execute_ok_while_workers_alive_witness :
    ReachOk { pool := { workers := [Worker.new 0 0], pipeline := 0 }, queue := [] } ∧
    Sys.execute { pool := { workers := [Worker.new 0 0], pipeline := 0 }, queue := [] }
        { id := 0, panics := false } =
      Except.ok { pool := { workers := [Worker.new 0 0], pipeline := 0 },
                  queue := [Message.Continue { id := 0, panics := false }] } := by
  have hr : ReachOk { pool := { workers := [Worker.new 0 0], pipeline := 0 }, queue := [] } :=
    ReachOk.init 1 _ (by decide) rfl
  exact ⟨hr, execute_ok_while_workers_alive _ _ hr⟩

/-- C4 counterexample: the claim as stated is false. From a one-worker pool,
submit a task that panics (the code does not contain task faults, so the
worker thread dies and drops the last reference to the receiver); the next
`execute` call, made while the pool value still exists, has its `send`
return an error and the `unwrap` panic — the panic branch is reachable, and
what previously submitted tasks did inside the workers decides it. -/
theorem execute_unwrap_panic_reachable :
    Sys.init 1 = Except.ok
      { pool := { workers := [{ handle := some { workerId := 0, inbox := 0,
                                                 status := ThreadStatus.running } }],
                  pipeline := 0 },
        queue := [] } ∧
    Sys.execute
        { pool := { workers := [{ handle := some { workerId := 0, inbox := 0,
                                                   status := ThreadStatus.running } }],
                    pipeline := 0 },
          queue := [] }
        { id := 0, panics := true } =
      Except.ok
        { pool := { workers := [{ handle := some { workerId := 0, inbox := 0,
                                                   status := ThreadStatus.running } }],
                    pipeline := 0 },
          queue := [Message.Continue { id := 0, panics := true }] } ∧
    Sys.workerStep
        { pool := { workers := [{ handle := some { workerId := 0, inbox := 0,
                                                   status := ThreadStatus.running } }],
                    pipeline := 0 },
          queue := [Message.Continue { id := 0, panics := true }] } 0 =
      some
        { pool := { workers := [{ handle := some { workerId := 0, inbox := 0,
                                                   status := ThreadStatus.faulted } }],
                    pipeline := 0 },
          queue := [] } ∧
    Sys.execute
        { pool := { workers := [{ handle := some { workerId := 0, inbox := 0,
                                                   status := ThreadStatus.faulted } }],
                    pipeline := 0 },
          queue := [] }
        { id := 1, panics := false } =
      Except.error () :=
  ⟨rfl, rfl, rfl, rfl⟩

end PurpleBlox
